import Mathlib

/-!
Verification development for the automated trade reconciliation system.

The embedding follows the source modules:
* matching engine (`engine.py`): config, scoring, validation, pairing;
* orchestrator (`orchestration.py`): run record and failure handling;
* break analyzer (`analyzer.py`): severity classification, auto-resolver,
  pattern-detector feature encoding.

Machine reals are modelled as rationals.  Numeric fields of DataFrame rows
are numpy float64 scalars, so a percent-difference division with a zero
denominator does not raise: it yields +infinity (positive numerator) or NaN
(zero numerator), and comparisons against NaN are false.  `PyFloat` models
exactly the results of those divisions.  The fuzzy counterparty similarity
comes from an external library and is modelled as an abstract function
`fz : String → String → ℚ` producing the 0..100 similarity value.
-/

namespace TradeRecon

/-- Result of a float64 division whose numerator is an absolute value
(hence nonnegative): a finite rational, +infinity, or NaN. -/
inductive PyFloat where
  | num (q : ℚ)
  | inf
  | nan
  deriving DecidableEq, Repr

/-- Float64 division `a / b` where `a` is an absolute value.  For `b ≠ 0`
this is exact rational division; for `b = 0` numpy produces NaN when the
numerator is also zero and +infinity otherwise. -/
def pdiv (a b : ℚ) : PyFloat :=
  if b ≠ 0 then .num (a / b)
  else if a = 0 then .nan
  else .inf

/-- Comparison `x <= q` on float64 values: false for +infinity and NaN. -/
def pyLe (x : PyFloat) (q : ℚ) : Bool :=
  match x with
  | .num a => decide (a ≤ q)
  | .inf => false
  | .nan => false

/-- Comparison `x > q` on float64 values: true for +infinity, false for NaN. -/
def pyGt (x : PyFloat) (q : ℚ) : Bool :=
  match x with
  | .num a => decide (q < a)
  | .inf => true
  | .nan => false

/-- `MatchConfig` from engine.py with its default tolerances. -/
structure MatchConfig where
  price_tolerance_percent : ℚ := 1/100
  price_tolerance_absolute : ℚ := 1/100
  quantity_tolerance_percent : ℚ := 1/1000
  time_window_hours : ℚ := 24
  min_match_score : ℚ := 85/100
  deriving DecidableEq, Repr

/-- The default configuration `MatchConfig()`. -/
def defaultConfig : MatchConfig := {}

/-- A canonical trade record as consumed by the matching engine.
`trade_date` is the execution timestamp in seconds (the engine only ever
uses `total_seconds() / 3600` of timestamp differences);
`settlement_date` is a calendar date in days. -/
structure Trade where
  id : Nat
  trade_id : String
  instrument_id : String
  counterparty : String
  price : ℚ
  quantity : ℚ
  trade_date : ℚ
  settlement_date : Int
  deriving DecidableEq, Repr

/-- `abs((internal.trade_date - other.trade_date).total_seconds() / 3600)`. -/
def timeDiffHours (internal other : Trade) : ℚ :=
  |internal.trade_date - other.trade_date| / 3600

/-- The `1 - diff_pct / tolerance, else 0` proximity score shared by the
price and quantity components of `_calculate_match_score`.  An inf/NaN
percent difference fails the `<=` test and takes the else-branch score 0,
matching float64 comparison semantics. -/
def proximityScore (tol : ℚ) (diffPct : PyFloat) : ℚ :=
  match diffPct with
  | .num q => if q ≤ tol then 1 - q / tol else 0
  | _ => 0

/-- `TradeMatchingEngine._calculate_match_score`: the five components in
source order, averaged. -/
def calculateMatchScore (cfg : MatchConfig) (fz : String → String → ℚ)
    (internal other : Trade) : ℚ :=
  let s1 : ℚ := if internal.instrument_id = other.instrument_id then 1 else 0
  let counterpartyScore : ℚ :=
    fz internal.counterparty.toUpper other.counterparty.toUpper / 100
  let s2 : ℚ := counterpartyScore * (8/10)
  let priceScore : ℚ :=
    proximityScore cfg.price_tolerance_percent (pdiv |internal.price - other.price| internal.price)
  let s3 : ℚ := priceScore * (9/10)
  let qtyScore : ℚ :=
    proximityScore cfg.quantity_tolerance_percent
      (pdiv |internal.quantity - other.quantity| internal.quantity)
  let s4 : ℚ := qtyScore * (9/10)
  let timeScore : ℚ := max 0 (1 - timeDiffHours internal other / cfg.time_window_hours)
  let s5 : ℚ := timeScore * (6/10)
  (s1 + s2 + s3 + s4 + s5) / 5

/-- `TradeMatchingEngine._validate_match`: the hard tolerance gate. -/
def validateMatch (cfg : MatchConfig) (internal other : Trade) : Bool :=
  let priceDiffPct := pdiv |internal.price - other.price| internal.price
  let priceDiffAbs : ℚ := |internal.price - other.price|
  if pyGt priceDiffPct cfg.price_tolerance_percent
      && decide (cfg.price_tolerance_absolute < priceDiffAbs) then
    false
  else
    let qtyDiffPct := pdiv |internal.quantity - other.quantity| internal.quantity
    if pyGt qtyDiffPct cfg.quantity_tolerance_percent then
      false
    else if internal.instrument_id ≠ other.instrument_id then
      false
    else
      true

/-- The three index keys a trade is filed under in `_create_lookup_index`
(and probed with in `_get_candidates`). -/
def tradeKeys (t : Trade) : List String :=
  [t.instrument_id, t.instrument_id ++ "_" ++ t.counterparty, t.trade_id]

/-- `TradeMatchingEngine._create_lookup_index` as a lookup function:
the bucket of `key` holds, in dataframe order, one occurrence of each
trade per occurrence of `key` among its keys. -/
def createLookupIndex (df : List Trade) : String → List Trade :=
  fun key => df.flatMap (fun t => ((tradeKeys t).filter (fun k => decide (k = key))).map (fun _ => t))

/-- `TradeMatchingEngine._get_candidates`: probe the index with the
internal trade's keys, dropping already-matched ids and trades outside the
time window. -/
def getCandidates (cfg : MatchConfig) (internal : Trade)
    (index : String → List Trade) (matchedIds : List Nat) : List Trade :=
  (tradeKeys internal).flatMap (fun key =>
    (index key).filter (fun t =>
      decide (t.id ∉ matchedIds) && decide (timeDiffHours internal t ≤ cfg.time_window_hours)))

/-- The best-candidate scan inside `_find_best_match`: `best_match` starts
as None and `best_score` as 0; a candidate replaces them only when its
score strictly exceeds the best so far and reaches `min_match_score`. -/
def findBestLoop (cfg : MatchConfig) (fz : String → String → ℚ) (internal : Trade) :
    List Trade → Option Trade → ℚ → Option Trade × ℚ
  | [], best, bestScore => (best, bestScore)
  | c :: rest, best, bestScore =>
    let score := calculateMatchScore cfg fz internal c
    if bestScore < score ∧ cfg.min_match_score ≤ score then
      findBestLoop cfg fz internal rest (some c) score
    else
      findBestLoop cfg fz internal rest best bestScore

/-- `TradeMatchingEngine._find_best_match`: `none` models the
unmatched result; a chosen best candidate must still pass the validation
gate. -/
def findBestMatch (cfg : MatchConfig) (fz : String → String → ℚ) (internal : Trade)
    (index : String → List Trade) (matchedIds : List Nat) : Option (Trade × ℚ) :=
  let candidates := getCandidates cfg internal index matchedIds
  if candidates.isEmpty then
    none
  else
    match findBestLoop cfg fz internal candidates none 0 with
    | (some best, bestScore) =>
      if validateMatch cfg internal best then some (best, bestScore) else none
    | (none, _) => none

/-- A matched pair as appended to `matches` in `match_trades`. -/
structure MatchPair where
  internal_trade : Trade
  matched_trade : Trade
  match_score : ℚ
  deriving DecidableEq, Repr

/-- An unmatched-side break record as appended to `breaks` in `match_trades`. -/
structure UnmatchedBreak where
  trade : Trade
  break_type : String
  severity : String
  deriving DecidableEq, Repr

/-- Break emitted for an internal trade with no accepted match. -/
def missingExtTradeBreak (t : Trade) : UnmatchedBreak :=
  ⟨t, "MISSING_EXTERNAL_TRADE", "HIGH"⟩

/-- Break emitted for an unmatched trade on the other side. -/
def missingIntTradeBreak (t : Trade) : UnmatchedBreak :=
  ⟨t, "MISSING_INTERNAL_TRADE", "HIGH"⟩

/-- One iteration of the internal-trade loop of `match_trades`, carried
state `(matches, breaks, matched_external_ids)`. -/
def matchStep (cfg : MatchConfig) (fz : String → String → ℚ)
    (index : String → List Trade)
    (st : List MatchPair × List UnmatchedBreak × List Nat) (internal : Trade) :
    List MatchPair × List UnmatchedBreak × List Nat :=
  match findBestMatch cfg fz internal index st.2.2 with
  | some (e, score) => (st.1 ++ [⟨internal, e, score⟩], st.2.1, st.2.2 ++ [e.id])
  | none => (st.1, st.2.1 ++ [missingExtTradeBreak internal], st.2.2)

/-- `TradeMatchingEngine.match_trades`: greedy pairing over internal
trades in input order, then a missing-internal break for every trade on
the other side whose id was never matched. -/
def matchTrades (cfg : MatchConfig) (fz : String → String → ℚ)
    (internalTrades otherTrades : List Trade) :
    List MatchPair × List UnmatchedBreak :=
  let index := createLookupIndex otherTrades
  let st := internalTrades.foldl (matchStep cfg fz index) ([], [], [])
  (st.1, st.2.1 ++ (otherTrades.filter (fun e => decide (e.id ∉ st.2.2))).map missingIntTradeBreak)

/-- The score formula exactly as claim C2 words it: the arithmetic mean of
five components, with plain rational percent differences (hence stated for
nonzero internal price and quantity). -/
def matchScoreSpecC2 (cfg : MatchConfig) (fz : String → String → ℚ)
    (internal other : Trade) : ℚ :=
  let c1 : ℚ := if internal.instrument_id = other.instrument_id then 1 else 0
  let c2 : ℚ := (8/10) * (fz internal.counterparty.toUpper other.counterparty.toUpper / 100)
  let priceDiffPct : ℚ := |internal.price - other.price| / internal.price
  let c3 : ℚ := (9/10) *
    (if priceDiffPct ≤ cfg.price_tolerance_percent
     then 1 - priceDiffPct / cfg.price_tolerance_percent else 0)
  let qtyDiffPct : ℚ := |internal.quantity - other.quantity| / internal.quantity
  let c4 : ℚ := (9/10) *
    (if qtyDiffPct ≤ cfg.quantity_tolerance_percent
     then 1 - qtyDiffPct / cfg.quantity_tolerance_percent else 0)
  let c5 : ℚ := (6/10) * max 0 (1 - timeDiffHours internal other / cfg.time_window_hours)
  (c1 + c2 + c3 + c4 + c5) / 5

/-- Char-list test: does the second list start with the first? Auxiliary
for the substring checks the classifier performs with Python's `in`. -/
def leadsList : List Char → List Char → Bool
  | [], _ => true
  | _ :: _, [] => false
  | p :: ps, c :: cs => decide (p = c) && leadsList ps cs

/-- Char-list substring test. -/
def containsList (pat : List Char) : List Char → Bool
  | [] => leadsList pat []
  | c :: cs => leadsList pat (c :: cs) || containsList pat cs

/-- Python `pat in s` on strings. -/
def strContains (s pat : String) : Bool := containsList pat.toList s.toList

/-- The trade sub-dictionary fields `_determine_severity` reads. -/
structure STrade where
  price : ℚ
  quantity : ℚ
  deriving DecidableEq, Repr

/-- An analyzer-view break record: `difference` is absent on some break
kinds (`none` models a missing key), `trade` is absent on intra-pair
mismatch breaks. -/
structure ABreak where
  break_type : String
  difference : Option ℚ
  trade : Option STrade
  deriving DecidableEq, Repr

/-- The fallback `severity_map` of `_determine_severity`. -/
def severityMap (breakType : String) : String :=
  if breakType = "SETTLEMENT_DATE_MISMATCH" then "MEDIUM"
  else if breakType = "COUNTERPARTY_MISMATCH" then "HIGH"
  else if breakType = "ACCOUNT_MISMATCH" then "HIGH"
  else if breakType = "CURRENCY_MISMATCH" then "CRITICAL"
  else "MEDIUM"

/-- `BreakAnalyzer._determine_severity`. -/
def determineSeverity (b : ABreak) : String :=
  if strContains b.break_type "MISSING" then "CRITICAL"
  else
    match b.difference with
    | some d =>
      let diff := |d|
      if strContains b.break_type "PRICE" then
        let quantity := (b.trade.map STrade.quantity).getD 0
        let impact := diff * quantity
        if 100000 < impact then "CRITICAL"
        else if 10000 < impact then "HIGH"
        else if 1000 < impact then "MEDIUM"
        else "LOW"
      else if strContains b.break_type "QUANTITY" then
        let price := (b.trade.map STrade.price).getD 0
        let impact := diff * price
        if 100000 < impact then "CRITICAL"
        else if 10000 < impact then "HIGH"
        else "MEDIUM"
      else severityMap b.break_type
    | none => severityMap b.break_type

/-- The four-way impact bucketing claim C8 describes. -/
def impactBucketC8 (impact : ℚ) : String :=
  if 100000 < impact then "CRITICAL"
  else if 10000 < impact then "HIGH"
  else if 1000 < impact then "MEDIUM"
  else "LOW"

/-- The severity assignment exactly as claim C8 words it: price and
quantity mismatches are both bucketed four ways, including a low bucket
at impact of at most 1000. -/
def severityClaimC8 (b : ABreak) : String :=
  if b.break_type = "MISSING_EXTERNAL_TRADE" ∨ b.break_type = "MISSING_INTERNAL_TRADE" then
    "CRITICAL"
  else if b.break_type = "CURRENCY_MISMATCH" then "CRITICAL"
  else if b.break_type = "PRICE_MISMATCH" then
    impactBucketC8 (|b.difference.getD 0| * (b.trade.map STrade.quantity).getD 0)
  else if b.break_type = "QUANTITY_MISMATCH" then
    impactBucketC8 (|b.difference.getD 0| * (b.trade.map STrade.price).getD 0)
  else severityMap b.break_type

/-- The mutable fields of a `ReconciliationRun` record that the failure
path of the orchestrator touches. -/
structure ReconRun where
  trade_date : Int
  status : String
  error_message : Option String
  deriving DecidableEq, Repr

/-- The value `run_daily_reconciliation` hands back to its caller. -/
inductive RunResult where
  | success (report : String)
  | failed (error : String)
  deriving DecidableEq, Repr

/-- The run record created at the top of `run_daily_reconciliation`. -/
def initRun (tradeDate : Int) : ReconRun :=
  ⟨tradeDate, "RUNNING", none⟩

/-- `ReconciliationOrchestrator.run_daily_reconciliation`, with the body
of the try-block (steps 1 to 7 and the COMPLETED close) abstracted as
`body`.  `body` receives the freshly created RUNNING run record; a raised
exception is an `Except.error` carrying the message and the run record as
mutated up to the raise point.  The except-clause marks the run FAILED,
records the message, and returns a FAILED result dictionary. -/
def runDailyReconciliation
    (body : ReconRun → Except (String × ReconRun) (ReconRun × RunResult))
    (tradeDate : Int) : ReconRun × RunResult :=
  match body (initRun tradeDate) with
  | .ok (run, result) => (run, result)
  | .error (e, run) =>
    ({ run with status := "FAILED", error_message := some e }, RunResult.failed e)

/-- Modelled from the spec: claim C5 asserts the exception "is re-raised
to the caller"; this re-raising variant propagates the error after
recording the failure on the run record, for contrast with the function
the source defines. -/
def runDailyReconciliationSpecC5
    (body : ReconRun → Except (String × ReconRun) (ReconRun × RunResult))
    (tradeDate : Int) : Except (String × ReconRun) (ReconRun × RunResult) :=
  match body (initRun tradeDate) with
  | .ok (run, result) => .ok (run, result)
  | .error (e, run) =>
    .error (e, { run with status := "FAILED", error_message := some e })

/-- A dynamically typed Python value as stored in break dictionaries. -/
inductive PyVal where
  | num (q : ℚ)
  | str (s : String)
  | date (days : Int)
  deriving DecidableEq, Repr

/-- A break record as consumed by the auto-resolver.  `none` fields model
absent dictionary keys (reading one raises KeyError). -/
structure BreakRec where
  id : Nat
  break_type : String
  expected_value : Option PyVal
  actual_value : Option PyVal
  difference : Option PyVal
  auto_resolvable : Bool
  deriving DecidableEq, Repr

/-- Read a dictionary key; a missing key raises. -/
def getField (v : Option PyVal) (key : String) : Except String PyVal :=
  match v with
  | some x => .ok x
  | none => .error ("KeyError: " ++ key)

/-- `(expected - actual).days`: defined only when both values are dates;
any other combination raises (TypeError on the subtraction or
AttributeError on `.days`). -/
def pySubDays (a b : PyVal) : Except String Int :=
  match a, b with
  | .date d1, .date d2 => .ok (d1 - d2)
  | _, _ => .error "TypeError"

/-- `abs(x)` for a value expected to be numeric; raises otherwise. -/
def pyAbsNum (v : PyVal) : Except String ℚ :=
  match v with
  | .num q => .ok |q|
  | _ => .error "TypeError"

/-- A value expected to be a string (`.upper()` is later applied to it);
a non-string raises AttributeError. -/
def pyAsStr (v : PyVal) : Except String String :=
  match v with
  | .str s => .ok s
  | _ => .error "AttributeError"

/-- `AutoResolver._check_counterparty_alias`: fixed alias table looked up
in both orders on the uppercased names. -/
def checkCounterpartyAlias (name1 name2 : String) : Bool :=
  let known := fun (a b : String) =>
    (decide (a = "JPMORGAN CHASE") && decide (b = "JPM"))
    || (decide (a = "GOLDMAN SACHS") && decide (b = "GS"))
    || (decide (a = "MORGAN STANLEY") && decide (b = "MS"))
  let k1 := name1.toUpper
  let k2 := name2.toUpper
  known k1 k2 || known k2 k1

/-- Predicate of rule SETTLEMENT_DATE_T_PLUS_ADJUSTMENT.  The conjunction
short-circuits on the break type, so field reads raise only when the type
matches. -/
def rule1Cond (b : BreakRec) : Except String Bool :=
  if b.break_type ≠ "SETTLEMENT_DATE_MISMATCH" then .ok false
  else do
    let ev ← getField b.expected_value "expected_value"
    let av ← getField b.actual_value "actual_value"
    let d ← pySubDays ev av
    .ok (decide (|d| ≤ 1))

/-- Predicate of rule PENNY_ROUNDING. -/
def rule2Cond (b : BreakRec) : Except String Bool :=
  if b.break_type ≠ "PRICE_MISMATCH" then .ok false
  else do
    let dv ← getField b.difference "difference"
    let q ← pyAbsNum dv
    .ok (decide (q ≤ 1/100))

/-- Predicate of rule QUANTITY_ROUNDING (note the strict bound). -/
def rule3Cond (b : BreakRec) : Except String Bool :=
  if b.break_type ≠ "QUANTITY_MISMATCH" then .ok false
  else do
    let dv ← getField b.difference "difference"
    let q ← pyAbsNum dv
    .ok (decide (q < 1/100))

/-- Predicate of rule KNOWN_COUNTERPARTY_MAPPING. -/
def rule4Cond (b : BreakRec) : Except String Bool :=
  if b.break_type ≠ "COUNTERPARTY_MISMATCH" then .ok false
  else do
    let ev ← getField b.expected_value "expected_value"
    let av ← getField b.actual_value "actual_value"
    let s1 ← pyAsStr ev
    let s2 ← pyAsStr av
    .ok (checkCounterpartyAlias s1 s2)

/-- One entry of the resolver's declarative rule list. -/
structure ResolutionRule where
  name : String
  condition : BreakRec → Except String Bool
  action : String
  reason : String

/-- First rule of `_load_resolution_rules`. -/
def settlementRule : ResolutionRule :=
  ⟨"SETTLEMENT_DATE_T_PLUS_ADJUSTMENT", rule1Cond, "ACCEPT_EXTERNAL",
   "Settlement date within T+1 tolerance"⟩

/-- Second rule of `_load_resolution_rules`. -/
def pennyRule : ResolutionRule :=
  ⟨"PENNY_ROUNDING", rule2Cond, "ACCEPT_EXTERNAL",
   "Price difference within rounding tolerance (1 cent)"⟩

/-- Third rule of `_load_resolution_rules`. -/
def quantityRule : ResolutionRule :=
  ⟨"QUANTITY_ROUNDING", rule3Cond, "ACCEPT_INTERNAL",
   "Quantity difference negligible (< 0.01 shares)"⟩

/-- Fourth rule of `_load_resolution_rules`. -/
def counterpartyRule : ResolutionRule :=
  ⟨"KNOWN_COUNTERPARTY_MAPPING", rule4Cond, "UPDATE_MAPPING",
   "Counterparty names are known aliases"⟩

/-- `AutoResolver._load_resolution_rules`: the fixed, ordered rule list. -/
def resolutionRules : List ResolutionRule :=
  [settlementRule, pennyRule, quantityRule, counterpartyRule]

/-- The dictionary `attempt_auto_resolve` returns. -/
structure Resolution where
  resolved : Bool
  rule_applied : Option String
  action : Option String
  reason : Option String
  timestamp : Option Int
  deriving DecidableEq, Repr

/-- The dictionary returned when rule `r` fires at time `now`. -/
def fireResolution (r : ResolutionRule) (now : Int) : Resolution :=
  ⟨true, some r.name, some r.action, some r.reason, some now⟩

/-- The dictionary returned when no rule fires. -/
def noResolution : Resolution := ⟨false, none, none, none, none⟩

/-- The rule loop of `attempt_auto_resolve`: the first condition returning
true fires; a condition that raises is caught and the loop continues. -/
def attemptAutoResolveAux (now : Int) (b : BreakRec) : List ResolutionRule → Resolution
  | [] => noResolution
  | r :: rest =>
    match r.condition b with
    | .ok true => fireResolution r now
    | .ok false => attemptAutoResolveAux now b rest
    | .error _ => attemptAutoResolveAux now b rest

/-- `AutoResolver.attempt_auto_resolve` with `datetime.utcnow()` passed in
as `now`. -/
def attemptAutoResolve (now : Int) (b : BreakRec) : Resolution :=
  attemptAutoResolveAux now b resolutionRules

/-- The columns of a Break table row that `_update_break_status` writes. -/
structure BreakRow where
  status : String
  resolved_at : Option Int
  resolution_notes : Option String
  deriving DecidableEq, Repr

/-- `AutoResolver._update_break_status`: update the first row carrying the
given id, if any. -/
def updateBreakStatus (now : Int) (breakId : Nat) (status : String) (res : Resolution) :
    List (Nat × BreakRow) → List (Nat × BreakRow)
  | [] => []
  | (i, row) :: rest =>
    if i = breakId then
      (i, ⟨status, some now, some ("Auto-resolved: " ++ res.reason.getD "None")⟩) :: rest
    else
      (i, row) :: updateBreakStatus now breakId status res rest

/-- The running tallies of `batch_auto_resolve`. -/
structure BatchResults where
  total_breaks : Nat
  auto_resolved : Nat
  failed_resolution : Nat
  resolutions : List (Nat × Resolution)
  deriving DecidableEq, Repr

/-- One iteration of the break loop of `batch_auto_resolve`, acting on the
pair (database, results). -/
def batchStep (now : Int) (st : List (Nat × BreakRow) × BatchResults) (b : BreakRec) :
    List (Nat × BreakRow) × BatchResults :=
  if b.auto_resolvable then
    let resolution := attemptAutoResolve now b
    if resolution.resolved then
      (updateBreakStatus now b.id "AUTO_RESOLVED" resolution st.1,
       { st.2 with auto_resolved := st.2.auto_resolved + 1,
                   resolutions := st.2.resolutions ++ [(b.id, resolution)] })
    else
      (st.1, { st.2 with failed_resolution := st.2.failed_resolution + 1 })
  else
    st

/-- `AutoResolver.batch_auto_resolve` acting on an explicit database of
break rows; returns the updated database and the results dictionary. -/
def batchAutoResolve (now : Int) (db : List (Nat × BreakRow)) (breaks : List BreakRec) :
    List (Nat × BreakRow) × BatchResults :=
  breaks.foldl (batchStep now) (db, ⟨breaks.length, 0, 0, []⟩)

/-- The trade sub-dictionary fields the pattern feature encoding reads. -/
structure PTrade where
  counterparty : String
  instrument_id : String
  price : ℚ
  quantity : ℚ
  deriving DecidableEq, Repr

/-- A break as consumed by `detect_patterns`. -/
structure PBreak where
  trade : Option PTrade
  break_type : String
  priority_score : ℚ
  deriving DecidableEq, Repr

/-- The per-break feature vector built by `detect_patterns`, parameterized
by the process string-hash function `pyHash` (Python's builtin `hash`,
which for strings is salted per process by PYTHONHASHSEED). -/
def featureVector (pyHash : String → Int) (b : PBreak) : List ℚ :=
  [ (((pyHash ((b.trade.map PTrade.counterparty).getD "")) % 1000 : Int) : ℚ),
    (((pyHash ((b.trade.map PTrade.instrument_id).getD "")) % 1000 : Int) : ℚ),
    (((pyHash b.break_type) % 100 : Int) : ℚ),
    b.priority_score,
    (b.trade.map PTrade.price).getD 0,
    (b.trade.map PTrade.quantity).getD 0 ]

/-- The feature matrix `detect_patterns` hands to the scaler and the
density clustering (whose memberships are a function of it); fewer than 5
breaks short-circuit to no patterns. -/
def detectPatternsFeatures (pyHash : String → Int) (breaks : List PBreak) : List (List ℚ) :=
  if breaks.length < 5 then [] else breaks.map (featureVector pyHash)

/-- A concrete similarity function for witnesses: it agrees with the
library ratio on identical strings (ratio 100) and is otherwise 0, which
is all the concrete inputs below exercise. -/
def fzSample : String → String → ℚ := fun s t => if s = t then 100 else 0

/-- Sample internal trade: buy side, positive price and quantity. -/
def tIntA : Trade := ⟨1, "T1", "ABC", "JPM", 10, 100, 0, 0⟩

/-- Sample external-side trade identical to `tIntA` in economics. -/
def tExtA : Trade := ⟨2, "E1", "ABC", "JPM", 10, 100, 0, 0⟩

/-- Sample internal sell trade: signed quantity convention, quantity -100. -/
def tIntNeg : Trade := ⟨1, "T1", "ABC", "JPM", 10, -100, 0, 0⟩

/-- Sample external-side sell trade with quantity -90. -/
def tExtNeg : Trade := ⟨2, "E1", "ABC", "JPM", 10, -90, 0, 0⟩

/-- Sample internal trade with zero quantity. -/
def tIntZeroQty : Trade := ⟨1, "T1", "ABC", "JPM", 10, 0, 0, 0⟩

/-- Sample external-side trade with zero quantity. -/
def tExtZeroQty : Trade := ⟨2, "E1", "ABC", "JPM", 10, 0, 0, 0⟩

/-- Sample internal trade at price 100. -/
def tIntP100 : Trade := ⟨1, "T1", "ABC", "JPM", 100, 50, 0, 0⟩

/-- Sample external-side trade at price 101: the percent difference sits
exactly at the default 1 percent tolerance. -/
def tExtP101 : Trade := ⟨2, "E1", "ABC", "JPM", 101, 50, 0, 0⟩

/-- A configuration whose minimum match score is permissive. -/
def cfgHalf : MatchConfig := { min_match_score := 1/2 }

/-- Sample internal trade with zero price. -/
def tIntZeroPrice : Trade := ⟨1, "T1", "ABC", "JPM", 0, 100, 0, 0⟩

/-- Sample internal trade with zero price and zero quantity. -/
def tIntZeroBoth : Trade := ⟨1, "T1", "ABC", "JPM", 0, 0, 0, 0⟩

/-- An orchestrator body that raises immediately. -/
def bodyBoom : ReconRun → Except (String × ReconRun) (ReconRun × RunResult) :=
  fun run => .error ("boom", run)

/-- A settlement-date break whose dates differ by one day: the first
resolver rule fires on it. -/
def bSettleOk : BreakRec :=
  { id := 1, break_type := "SETTLEMENT_DATE_MISMATCH",
    expected_value := some (.date 10), actual_value := some (.date 9),
    difference := none, auto_resolvable := true }

/-- A settlement-date break whose expected/actual values are numbers: the
first rule's predicate raises on it and no rule fires. -/
def bSettleRaise : BreakRec :=
  { id := 2, break_type := "SETTLEMENT_DATE_MISMATCH",
    expected_value := some (.num 5), actual_value := some (.num 3),
    difference := none, auto_resolvable := true }

/-- A quantity-mismatch break with impact 1 x 500 = 500. -/
def bQtyImpact500 : ABreak :=
  { break_type := "QUANTITY_MISMATCH", difference := some 1,
    trade := some { price := 500, quantity := 100 } }

/-- A string-hash function as one process (one hash seed) may realize it. -/
def pHashZero : String → Int := fun _ => 0

/-- A string-hash function as another process (another seed) may realize
it. -/
def pHashOne : String → Int := fun _ => 1

/-- A sample break for the pattern detector. -/
def pbSample : PBreak :=
  { trade := some { counterparty := "JPM", instrument_id := "ABC", price := 10, quantity := 100 },
    break_type := "MISSING_EXTERNAL_TRADE", priority_score := 500 }

/-- Five byte-identical sample breaks (the detector's minimum). -/
def pbList5 : List PBreak := List.replicate 5 pbSample

end TradeRecon

namespace TradeRecon

/-! ### Engine lemmas -/

/-- With a nonzero denominator the percent division is plain rational
division. -/
theorem pdiv_of_ne (a b : ℚ) (hb : b ≠ 0) : pdiv a b = .num (a / b) := by
  simp [pdiv, hb]

/-- A zero-over-zero percent difference is NaN. -/
theorem pdiv_zero_zero : pdiv 0 0 = .nan := by
  simp [pdiv]

/-- A nonzero-over-zero percent difference is +infinity. -/
theorem pdiv_zero_of_ne (a : ℚ) (ha : a ≠ 0) : pdiv a 0 = .inf := by
  simp [pdiv, ha]

/-- The proximity score with a nonzero denominator, written with plain
division. -/
theorem proximityScore_pdiv_of_ne (tol a b : ℚ) (hb : b ≠ 0) :
    proximityScore tol (pdiv a b) =
      if a / b ≤ tol then 1 - (a / b) / tol else 0 := by
  simp [proximityScore, pdiv, hb]

/-- The proximity score of a nonnegative-over-nonnegative percent
difference never exceeds 1. -/
theorem proximityScore_le_one (tol a b : ℚ) (ha : 0 ≤ a) (hb : 0 ≤ b)
    (htol : 0 < tol) : proximityScore tol (pdiv a b) ≤ 1 := by
  rcases eq_or_lt_of_le hb with hb0 | hb0
  · rcases eq_or_ne a 0 with ha0 | ha0
    · rw [← hb0, ha0, pdiv_zero_zero]
      norm_num [proximityScore]
    · rw [← hb0, pdiv_zero_of_ne a ha0]
      norm_num [proximityScore]
  · rw [proximityScore_pdiv_of_ne tol a b (ne_of_gt hb0)]
    split
    · have hq : 0 ≤ a / b / tol := by positivity
      linarith
    · norm_num

/-- C2: for nonzero internal price and quantity, the computed match score
is exactly the arithmetic mean of the five components the claim lists:
instrument equality (unweighted), 0.8 times the counterparty similarity,
0.9 times the price proximity, 0.9 times the quantity proximity, and 0.6
times the time proximity. -/
theorem calculateMatchScore_eq_specC2 (cfg : MatchConfig) (fz : String → String → ℚ)
    (internal other : Trade) (hp : internal.price ≠ 0) (hq : internal.quantity ≠ 0) :
    calculateMatchScore cfg fz internal other = matchScoreSpecC2 cfg fz internal other := by
  unfold calculateMatchScore matchScoreSpecC2
  rw [proximityScore_pdiv_of_ne _ _ _ hp, proximityScore_pdiv_of_ne _ _ _ hq]
  ring

/-- C2 witness: the score identity evaluated at a concrete pair with
nonzero internal price and quantity. -/
theorem calculateMatchScore_eq_specC2_witness :
    calculateMatchScore defaultConfig fzSample tIntA tExtA
      = matchScoreSpecC2 defaultConfig fzSample tIntA tExtA :=
  calculateMatchScore_eq_specC2 defaultConfig fzSample tIntA tExtA
    (by norm_num [tIntA]) (by norm_num [tIntA])

/-- Component bound: the similarity-weighted counterparty component is at
most 0.8 when the similarity value is at most 100. -/
theorem counterparty_component_le (x : ℚ) (hx : x ≤ 100) : x / 100 * (8/10) ≤ 8/10 := by
  nlinarith

/-- Score bound: when the internal trade has nonnegative price and
quantity (and the configured tolerances and window are positive), every
candidate scores at most 0.84, the mean of the maximal component values
1.0, 0.8, 0.9, 0.9 and 0.6. -/
theorem calculateMatchScore_le (cfg : MatchConfig) (fz : String → String → ℚ)
    (hfz : ∀ s t, fz s t ≤ 100)
    (hpt : 0 < cfg.price_tolerance_percent) (hqt : 0 < cfg.quantity_tolerance_percent)
    (hw : 0 < cfg.time_window_hours)
    (internal other : Trade) (hp : 0 ≤ internal.price) (hq : 0 ≤ internal.quantity) :
    calculateMatchScore cfg fz internal other ≤ 84/100 := by
  unfold calculateMatchScore
  have h1 : (if internal.instrument_id = other.instrument_id then (1:ℚ) else 0) ≤ 1 := by
    split <;> norm_num
  have h2 : fz internal.counterparty.toUpper other.counterparty.toUpper / 100 * (8/10)
      ≤ 8/10 := counterparty_component_le _ (hfz _ _)
  have h3 : proximityScore cfg.price_tolerance_percent
      (pdiv |internal.price - other.price| internal.price) ≤ 1 :=
    proximityScore_le_one _ _ _ (abs_nonneg _) hp hpt
  have h4 : proximityScore cfg.quantity_tolerance_percent
      (pdiv |internal.quantity - other.quantity| internal.quantity) ≤ 1 :=
    proximityScore_le_one _ _ _ (abs_nonneg _) hq hqt
  have h5 : max 0 (1 - timeDiffHours internal other / cfg.time_window_hours) ≤ 1 := by
    have hd : 0 ≤ timeDiffHours internal other / cfg.time_window_hours := by
      unfold timeDiffHours
      positivity
    simp only [max_le_iff]
    constructor <;> linarith
  linarith

/-- If no candidate reaches the minimum score, the best-candidate scan
never replaces the initial empty best. -/
theorem findBestLoop_none (cfg : MatchConfig) (fz : String → String → ℚ) (internal : Trade)
    (cands : List Trade)
    (h : ∀ c ∈ cands, ¬ cfg.min_match_score ≤ calculateMatchScore cfg fz internal c) :
    ∀ s : ℚ, findBestLoop cfg fz internal cands none s = (none, s) := by
  induction cands with
  | nil => intro s; rfl
  | cons c rest ih =>
    intro s
    have hc := h c (List.mem_cons_self c rest)
    have hrest : ∀ c2 ∈ rest, ¬ cfg.min_match_score ≤ calculateMatchScore cfg fz internal c2 :=
      fun c2 hc2 => h c2 (List.mem_cons_of_mem c hc2)
    unfold findBestLoop
    rw [if_neg (by intro hcon; exact hc hcon.2)]
    exact ih hrest s

/-- If no candidate reaches the minimum score, `_find_best_match` reports
unmatched. -/
theorem findBestMatch_none (cfg : MatchConfig) (fz : String → String → ℚ) (internal : Trade)
    (index : String → List Trade) (matchedIds : List Nat)
    (h : ∀ c, ¬ cfg.min_match_score ≤ calculateMatchScore cfg fz internal c) :
    findBestMatch cfg fz internal index matchedIds = none := by
  unfold findBestMatch
  dsimp only
  split
  · rfl
  · rw [findBestLoop_none cfg fz internal _ (fun c _ => h c) 0]

/-- If every internal trade is unmatchable, the pairing loop of
`match_trades` only accumulates missing-side breaks. -/
theorem foldl_matchStep_all_missing (cfg : MatchConfig) (fz : String → String → ℚ)
    (index : String → List Trade) :
    ∀ (ts : List Trade) (ms : List MatchPair) (bs : List UnmatchedBreak) (mids : List Nat),
      (∀ t ∈ ts, ∀ mids2, findBestMatch cfg fz t index mids2 = none) →
      ts.foldl (matchStep cfg fz index) (ms, bs, mids)
        = (ms, bs ++ ts.map missingExtTradeBreak, mids) := by
  intro ts
  induction ts with
  | nil => intro ms bs mids _; simp
  | cons t rest ih =>
    intro ms bs mids h
    have ht := h t (List.mem_cons_self t rest) mids
    have hrest : ∀ t2 ∈ rest, ∀ mids2, findBestMatch cfg fz t2 index mids2 = none :=
      fun t2 h2 => h t2 (List.mem_cons_of_mem t h2)
    simp only [List.foldl_cons, matchStep, ht]
    rw [ih _ _ _ hrest]
    simp

/-- C1 (amended): provided every internal trade has nonnegative price and
quantity (sell trades carry negative signed quantities, for which the
bound fails), the match score is at most 0.84; consequently under the
default configuration (min score 0.85) no candidate is ever accepted and
`match_trades` emits only missing-side breaks. -/
theorem matchTrades_default_all_breaks (fz : String → String → ℚ)
    (hfz : ∀ s t, 0 ≤ fz s t ∧ fz s t ≤ 100)
    (internalTrades otherTrades : List Trade)
    (hpos : ∀ t ∈ internalTrades, 0 ≤ t.price ∧ 0 ≤ t.quantity) :
    (∀ internal other : Trade, 0 ≤ internal.price → 0 ≤ internal.quantity →
        calculateMatchScore defaultConfig fz internal other ≤ 84/100)
    ∧ matchTrades defaultConfig fz internalTrades otherTrades
        = ([], internalTrades.map missingExtTradeBreak
                ++ otherTrades.map missingIntTradeBreak) := by
  have hbound : ∀ internal other : Trade, 0 ≤ internal.price → 0 ≤ internal.quantity →
      calculateMatchScore defaultConfig fz internal other ≤ 84/100 := by
    intro internal other hp hq
    exact calculateMatchScore_le defaultConfig fz (fun s t => (hfz s t).2)
      (by norm_num [defaultConfig]) (by norm_num [defaultConfig])
      (by norm_num [defaultConfig]) internal other hp hq
  refine ⟨hbound, ?_⟩
  unfold matchTrades
  dsimp only
  have hnone : ∀ t ∈ internalTrades, ∀ mids2,
      findBestMatch defaultConfig fz t (createLookupIndex otherTrades) mids2 = none := by
    intro t ht mids2
    refine findBestMatch_none _ _ _ _ _ (fun c hcon => ?_)
    have hle := hbound t c (hpos t ht).1 (hpos t ht).2
    have : (85:ℚ)/100 ≤ 84/100 := le_trans (by norm_num [defaultConfig] at hcon ⊢; exact hcon) hle
    norm_num at this
  rw [foldl_matchStep_all_missing defaultConfig fz _ internalTrades [] [] [] hnone]
  simp

/-- C1 witness: the amended statement at a concrete all-positive pair. -/
theorem matchTrades_default_all_breaks_witness :
    calculateMatchScore defaultConfig fzSample tIntA tExtA ≤ 84/100
    ∧ matchTrades defaultConfig fzSample [tIntA] [tExtA]
        = ([], [missingExtTradeBreak tIntA, missingIntTradeBreak tExtA]) := by
  have h := matchTrades_default_all_breaks fzSample
    (by intro s t; unfold fzSample; split <;> norm_num)
    [tIntA] [tExtA]
    (by intro t ht; simp at ht; subst ht; norm_num [tIntA])
  exact ⟨h.1 tIntA tExtA (by norm_num [tIntA]) (by norm_num [tIntA]), by simpa using h.2⟩

/-- C1 counterexample: for a sell pair (negative internal quantity) the
score blows past 0.84 (it is 18.84 here) and `match_trades` under the
default configuration returns a non-empty match list, so the claimed
bound and the claimed always-empty match list are both false. -/
theorem matchTrades_default_counterexample :
    84/100 < calculateMatchScore defaultConfig fzSample tIntNeg tExtNeg
    ∧ (matchTrades defaultConfig fzSample [tIntNeg] [tExtNeg]).1.length = 1 := by
  constructor
  · norm_num [calculateMatchScore, proximityScore, pdiv, timeDiffHours, defaultConfig,
      fzSample, tIntNeg, tExtNeg]
  · norm_num [matchTrades, matchStep, findBestMatch, getCandidates, createLookupIndex,
      tradeKeys, findBestLoop, validateMatch, calculateMatchScore, proximityScore, pdiv,
      pyGt, timeDiffHours, defaultConfig, fzSample, tIntNeg, tExtNeg]

/-- Membership in an index bucket implies membership in the indexed list. -/
theorem mem_createLookupIndex {df : List Trade} {key : String} {t : Trade}
    (h : t ∈ createLookupIndex df key) : t ∈ df := by
  unfold createLookupIndex at h
  rw [List.mem_flatMap] at h
  obtain ⟨u, hu, hmem⟩ := h
  rw [List.mem_map] at hmem
  obtain ⟨k, _, rfl⟩ := hmem
  exact hu

/-- A candidate produced by `_get_candidates` over the index of `df`
belongs to `df` and is not already matched. -/
theorem getCandidates_mem {cfg : MatchConfig} {internal : Trade} {df : List Trade}
    {mids : List Nat} {c : Trade}
    (h : c ∈ getCandidates cfg internal (createLookupIndex df) mids) :
    c ∈ df ∧ c.id ∉ mids := by
  unfold getCandidates at h
  rw [List.mem_flatMap] at h
  obtain ⟨key, _, hc⟩ := h
  rw [List.mem_filter] at hc
  obtain ⟨hidx, hcond⟩ := hc
  simp only [Bool.and_eq_true, decide_eq_true_eq] at hcond
  exact ⟨mem_createLookupIndex hidx, hcond.1⟩

/-- The best-candidate scan only ever returns the initial best or a list
member. -/
theorem findBestLoop_mem (cfg : MatchConfig) (fz : String → String → ℚ) (internal : Trade) :
    ∀ (cands : List Trade) (best : Option Trade) (bs : ℚ) (e : Trade) (s : ℚ),
      findBestLoop cfg fz internal cands best bs = (some e, s) →
      best = some e ∨ e ∈ cands := by
  intro cands
  induction cands with
  | nil =>
    intro best bs e s h
    unfold findBestLoop at h
    injection h with h1 _
    exact Or.inl h1
  | cons c rest ih =>
    intro best bs e s h
    unfold findBestLoop at h
    dsimp only at h
    split at h
    · rcases ih _ _ _ _ h with h1 | h1
      · injection h1 with h1
        exact Or.inr (h1 ▸ List.mem_cons_self c rest)
      · exact Or.inr (List.mem_cons_of_mem c h1)
    · rcases ih _ _ _ _ h with h1 | h1
      · exact Or.inl h1
      · exact Or.inr (List.mem_cons_of_mem c h1)

/-- A match reported by `_find_best_match` over the index of `df` is a
member of `df` whose id is not yet in the matched set. -/
theorem findBestMatch_mem {cfg : MatchConfig} {fz : String → String → ℚ} {internal : Trade}
    {df : List Trade} {mids : List Nat} {e : Trade} {s : ℚ}
    (h : findBestMatch cfg fz internal (createLookupIndex df) mids = some (e, s)) :
    e ∈ df ∧ e.id ∉ mids := by
  unfold findBestMatch at h
  dsimp only at h
  split at h
  · exact absurd h (by simp)
  · split at h
    · rename_i best bestScore heq
      split at h
      · injection h with h1
        have hbest : best = e := congrArg Prod.fst h1
        subst hbest
        rcases findBestLoop_mem cfg fz internal _ _ _ _ _ heq with h2 | h2
        · exact absurd h2 (by simp)
        · exact getCandidates_mem h2
      · exact absurd h (by simp)
    · exact absurd h (by simp)

/-- Invariant of the pairing loop of `match_trades`: as many matches as
matched ids, matched ids distinct and drawn from the other side's ids,
only missing-side breaks accumulated, and one match-or-break per
processed trade. -/
theorem foldl_matchStep_inv (cfg : MatchConfig) (fz : String → String → ℚ)
    (df : List Trade) :
    ∀ (ts : List Trade) (st : List MatchPair × List UnmatchedBreak × List Nat),
      st.1.length = st.2.2.length → st.2.2.Nodup →
      (∀ x ∈ st.2.2, x ∈ df.map Trade.id) →
      (∀ b ∈ st.2.1, b.break_type = "MISSING_EXTERNAL_TRADE") →
      ((ts.foldl (matchStep cfg fz (createLookupIndex df)) st).1.length
          = (ts.foldl (matchStep cfg fz (createLookupIndex df)) st).2.2.length
       ∧ (ts.foldl (matchStep cfg fz (createLookupIndex df)) st).2.2.Nodup
       ∧ (∀ x ∈ (ts.foldl (matchStep cfg fz (createLookupIndex df)) st).2.2,
            x ∈ df.map Trade.id)
       ∧ (∀ b ∈ (ts.foldl (matchStep cfg fz (createLookupIndex df)) st).2.1,
            b.break_type = "MISSING_EXTERNAL_TRADE")
       ∧ (ts.foldl (matchStep cfg fz (createLookupIndex df)) st).1.length
            + (ts.foldl (matchStep cfg fz (createLookupIndex df)) st).2.1.length
          = st.1.length + st.2.1.length + ts.length) := by
  intro ts
  induction ts with
  | nil =>
    intro st h1 h2 h3 h4
    exact ⟨h1, h2, h3, h4, by simp⟩
  | cons t rest ih =>
    intro st h1 h2 h3 h4
    simp only [List.foldl_cons]
    rcases hfb : findBestMatch cfg fz t (createLookupIndex df) st.2.2 with _ | ⟨e, s⟩
    · have hstep : matchStep cfg fz (createLookupIndex df) st t
          = (st.1, st.2.1 ++ [missingExtTradeBreak t], st.2.2) := by
        unfold matchStep; rw [hfb]
      rw [hstep]
      obtain ⟨g1, g2, g3, g4, g5⟩ := ih (st.1, st.2.1 ++ [missingExtTradeBreak t], st.2.2)
        h1 h2 h3
        (by
          intro b hb
          rcases List.mem_append.mp hb with hb | hb
          · exact h4 b hb
          · simp only [List.mem_singleton] at hb
            subst hb
            rfl)
      refine ⟨g1, g2, g3, g4, ?_⟩
      simp only [List.length_append, List.length_singleton] at g5
      simp only [List.length_cons]
      omega
    · obtain ⟨hmem, hfresh⟩ := findBestMatch_mem hfb
      have hstep : matchStep cfg fz (createLookupIndex df) st t
          = (st.1 ++ [⟨t, e, s⟩], st.2.1, st.2.2 ++ [e.id]) := by
        unfold matchStep; rw [hfb]
      rw [hstep]
      obtain ⟨g1, g2, g3, g4, g5⟩ := ih (st.1 ++ [⟨t, e, s⟩], st.2.1, st.2.2 ++ [e.id])
        (by simp [h1])
        (by
          have hperm := List.perm_append_singleton e.id st.2.2
          rw [hperm.nodup_iff, List.nodup_cons]
          exact ⟨hfresh, h2⟩)
        (by
          intro x hx
          rcases List.mem_append.mp hx with hx | hx
          · exact h3 x hx
          · simp only [List.mem_singleton] at hx
            subst hx
            exact List.mem_map.mpr ⟨e, hmem, rfl⟩)
        h4
      refine ⟨g1, g2, g3, g4, ?_⟩
      simp only [List.length_append, List.length_singleton] at g5
      simp only [List.length_cons]
      omega

/-- Counting distinct matched ids inside the other side's list: when the
other side's ids are distinct and every matched id occurs among them, the
filter by membership has exactly as many elements as there are matched
ids. -/
theorem filter_mem_length (df : List Trade) (mids : List Nat)
    (hdf : (df.map Trade.id).Nodup) (hm : mids.Nodup)
    (hsub : ∀ x ∈ mids, x ∈ df.map Trade.id) :
    (df.filter (fun e => decide (e.id ∈ mids))).length = mids.length := by
  have h1 : (df.filter (fun e => decide (e.id ∈ mids))).length
      = ((df.map Trade.id).filter (fun x => decide (x ∈ mids))).length := by
    rw [← List.countP_eq_length_filter, ← List.countP_eq_length_filter, List.countP_map]
    rfl
  rw [h1]
  have hperm : List.Perm ((df.map Trade.id).filter (fun x => decide (x ∈ mids))) mids := by
    rw [List.perm_ext_iff_of_nodup (List.Nodup.filter _ hdf) hm]
    intro a
    rw [List.mem_filter]
    simp only [decide_eq_true_eq]
    constructor
    · rintro ⟨_, h⟩
      exact h
    · intro h
      exact ⟨hsub a h, h⟩
  exact hperm.length_eq

/-- C4: conservation.  For duplicate-free inputs, twice the matched pairs
plus the missing-side breaks of both kinds account for every input trade. -/
theorem matchTrades_conservation (cfg : MatchConfig) (fz : String → String → ℚ)
    (internalTrades otherTrades : List Trade)
    (_hI : (internalTrades.map Trade.id).Nodup)
    (hE : (otherTrades.map Trade.id).Nodup) :
    2 * (matchTrades cfg fz internalTrades otherTrades).1.length
      + ((matchTrades cfg fz internalTrades otherTrades).2.filter
          (fun b => decide (b.break_type = "MISSING_EXTERNAL_TRADE"))).length
      + ((matchTrades cfg fz internalTrades otherTrades).2.filter
          (fun b => decide (b.break_type = "MISSING_INTERNAL_TRADE"))).length
    = internalTrades.length + otherTrades.length := by
  unfold matchTrades
  dsimp only
  obtain ⟨hlen, hnd, hsub, hbt, hcount⟩ :=
    foldl_matchStep_inv cfg fz otherTrades internalTrades ([], [], [])
      rfl List.nodup_nil (by simp) (by simp)
  set st := internalTrades.foldl (matchStep cfg fz (createLookupIndex otherTrades))
    ([], [], []) with hst
  have hmapbt : ∀ b ∈ (otherTrades.filter
      (fun e => decide (e.id ∉ st.2.2))).map missingIntTradeBreak,
      b.break_type = "MISSING_INTERNAL_TRADE" := by
    intro b hb
    obtain ⟨t, _, rfl⟩ := List.mem_map.mp hb
    rfl
  have hExtFilter : (st.2.1 ++ (otherTrades.filter
        (fun e => decide (e.id ∉ st.2.2))).map missingIntTradeBreak).filter
        (fun b => decide (b.break_type = "MISSING_EXTERNAL_TRADE")) = st.2.1 := by
    rw [List.filter_append]
    have hA : st.2.1.filter (fun b => decide (b.break_type = "MISSING_EXTERNAL_TRADE"))
        = st.2.1 :=
      List.filter_eq_self.mpr (fun b hb => by simp [hbt b hb])
    have hB : ((otherTrades.filter (fun e => decide (e.id ∉ st.2.2))).map
          missingIntTradeBreak).filter
          (fun b => decide (b.break_type = "MISSING_EXTERNAL_TRADE")) = [] :=
      List.filter_eq_nil_iff.mpr (fun b hb => by simp [hmapbt b hb])
    rw [hA, hB, List.append_nil]
  have hIntFilter : (st.2.1 ++ (otherTrades.filter
        (fun e => decide (e.id ∉ st.2.2))).map missingIntTradeBreak).filter
        (fun b => decide (b.break_type = "MISSING_INTERNAL_TRADE"))
      = (otherTrades.filter (fun e => decide (e.id ∉ st.2.2))).map missingIntTradeBreak := by
    rw [List.filter_append]
    have hA : st.2.1.filter (fun b => decide (b.break_type = "MISSING_INTERNAL_TRADE"))
        = [] :=
      List.filter_eq_nil_iff.mpr (fun b hb => by simp [hbt b hb])
    have hB : ((otherTrades.filter (fun e => decide (e.id ∉ st.2.2))).map
          missingIntTradeBreak).filter
          (fun b => decide (b.break_type = "MISSING_INTERNAL_TRADE"))
        = (otherTrades.filter (fun e => decide (e.id ∉ st.2.2))).map missingIntTradeBreak :=
      List.filter_eq_self.mpr (fun b hb => by simp [hmapbt b hb])
    rw [hA, hB, List.nil_append]
  rw [hExtFilter, hIntFilter, List.length_map]
  have hin : (otherTrades.filter (fun e => decide (e.id ∈ st.2.2))).length
      = st.2.2.length := filter_mem_length otherTrades st.2.2 hE hnd hsub
  have hsplit : (otherTrades.filter (fun e => decide (e.id ∈ st.2.2))).length
      + (otherTrades.filter (fun e => decide (e.id ∉ st.2.2))).length
      = otherTrades.length := by
    rw [← List.countP_eq_length_filter, ← List.countP_eq_length_filter]
    have hcongr : List.countP (fun a => decide ¬(fun e => decide (e.id ∈ st.2.2)) a = true)
        otherTrades = List.countP (fun e => decide (e.id ∉ st.2.2)) otherTrades := by
      apply List.countP_congr
      intro e _
      simp
    rw [← hcongr, ← List.length_eq_countP_add_countP]
  simp only [List.length_nil] at hcount
  omega

/-- C4 witness: conservation at a concrete duplicate-free pair of inputs
(here one matched pair forms, so 2 x 1 + 0 + 0 = 1 + 1). -/
theorem matchTrades_conservation_witness :
    2 * (matchTrades defaultConfig fzSample [tIntNeg] [tExtNeg]).1.length
      + ((matchTrades defaultConfig fzSample [tIntNeg] [tExtNeg]).2.filter
          (fun b => decide (b.break_type = "MISSING_EXTERNAL_TRADE"))).length
      + ((matchTrades defaultConfig fzSample [tIntNeg] [tExtNeg]).2.filter
          (fun b => decide (b.break_type = "MISSING_INTERNAL_TRADE"))).length
    = 2 := by
  have h := matchTrades_conservation defaultConfig fzSample [tIntNeg] [tExtNeg]
    (by simp) (by simp)
  simpa using h

/-- C3: for nonzero internal price and quantity, the validation gate
accepts exactly when the instrument ids agree, the price is within the
percent tolerance or within the absolute tolerance, and the quantity is
within the percent tolerance; all comparisons non-strict. -/
theorem validateMatch_iff (cfg : MatchConfig) (internal other : Trade)
    (hp : internal.price ≠ 0) (hq : internal.quantity ≠ 0) :
    validateMatch cfg internal other = true ↔
      (internal.instrument_id = other.instrument_id
       ∧ (|internal.price - other.price| / internal.price ≤ cfg.price_tolerance_percent
          ∨ |internal.price - other.price| ≤ cfg.price_tolerance_absolute)
       ∧ |internal.quantity - other.quantity| / internal.quantity
           ≤ cfg.quantity_tolerance_percent) := by
  unfold validateMatch
  rw [pdiv_of_ne _ _ hp, pdiv_of_ne _ _ hq]
  simp only [pyGt]
  constructor
  · intro h
    split at h
    · exact absurd h (by simp)
    · rename_i hprice
      split at h
      · exact absurd h (by simp)
      · rename_i hqty
        split at h
        · exact absurd h (by simp)
        · rename_i hinstr
          push_neg at hinstr
          simp only [Bool.and_eq_true, decide_eq_true_eq, not_and, not_lt] at hprice hqty
          refine ⟨hinstr, ?_, by exact not_lt.mp (by simpa using hqty)⟩
          by_cases hpp : |internal.price - other.price| / internal.price
              ≤ cfg.price_tolerance_percent
          · exact Or.inl hpp
          · exact Or.inr (by
              rcases Bool.and_eq_false_iff.mp (by simpa using hprice) with h1 | h2
              · exact absurd (by simpa using h1) (by simpa using hpp)
              · simpa using h2)
  · rintro ⟨hinstr, hpr, hqty⟩
    have hq2 : ¬ (cfg.quantity_tolerance_percent
        < |internal.quantity - other.quantity| / internal.quantity) := not_lt.mpr hqty
    have hp2 : ¬ (decide (cfg.price_tolerance_percent
          < |internal.price - other.price| / internal.price)
        && decide (cfg.price_tolerance_absolute < |internal.price - other.price|)) = true := by
      rcases hpr with h | h <;> simp [not_lt.mpr h]
    split
    · rename_i hcon
      exact absurd hcon hp2
    · split
      · rename_i hcon
        exact absurd (of_decide_eq_true hcon) hq2
      · split
        · rename_i hcon
          exact absurd hinstr hcon
        · rfl

/-- C3 witness: a pair whose price difference sits exactly at the percent
tolerance is accepted by the gate. -/
theorem validateMatch_iff_witness : validateMatch defaultConfig tIntP100 tExtP101 = true :=
  (validateMatch_iff defaultConfig tIntP100 tExtP101
      (by norm_num [tIntP100]) (by norm_num [tIntP100])).mpr
    ⟨by norm_num [tIntP100, tExtP101],
     Or.inl (by norm_num [tIntP100, tExtP101, defaultConfig]),
     by norm_num [tIntP100, tExtP101, defaultConfig]⟩

/-- C5 counterexample: a body raising "boom" makes
`run_daily_reconciliation` RETURN a FAILED result dictionary (first
conjunct), while the claimed re-raising behaviour (second conjunct,
spec-modelled) would propagate the exception to the caller; the code
catches instead of re-raising. -/
theorem runDaily_counterexample :
    runDailyReconciliation bodyBoom 0
      = (⟨0, "FAILED", some "boom"⟩, RunResult.failed "boom")
    ∧ runDailyReconciliationSpecC5 bodyBoom 0
      = .error ("boom", ⟨0, "FAILED", some "boom"⟩) :=
  ⟨rfl, rfl⟩

/-- C5 (amended): an exception raised in the body marks the run record
FAILED with the error message recorded, and the function returns a FAILED
result dictionary to its caller (the exception is caught, not
re-raised). -/
theorem runDaily_failure_path
    (body : ReconRun → Except (String × ReconRun) (ReconRun × RunResult))
    (tradeDate : Int) (e : String) (run2 : ReconRun)
    (h : body (initRun tradeDate) = .error (e, run2)) :
    runDailyReconciliation body tradeDate
      = ({ run2 with status := "FAILED", error_message := some e },
         RunResult.failed e) := by
  unfold runDailyReconciliation
  rw [h]

/-- C5 witness: the failure path at a concrete raising body. -/
theorem runDaily_failure_path_witness :
    runDailyReconciliation bodyBoom 1
      = (⟨1, "FAILED", some "boom"⟩, RunResult.failed "boom") :=
  runDaily_failure_path bodyBoom 1 "boom" (initRun 1) rfl

/-- The general rule scan: the first rule whose condition returns true
fires; conditions before it may return false or raise. -/
theorem attemptAutoResolveAux_first (now : Int) (b : BreakRec) :
    ∀ (pre : List ResolutionRule) (r : ResolutionRule) (post : List ResolutionRule),
      (∀ r2 ∈ pre, r2.condition b ≠ .ok true) → r.condition b = .ok true →
      attemptAutoResolveAux now b (pre ++ r :: post) = fireResolution r now := by
  intro pre
  induction pre with
  | nil =>
    intro r post _ hr
    simp only [List.nil_append]
    unfold attemptAutoResolveAux
    rw [hr]
  | cons p pre2 ih =>
    intro r post hpre hr
    have hp := hpre p (List.mem_cons_self p pre2)
    have hrest : ∀ r2 ∈ pre2, r2.condition b ≠ .ok true :=
      fun r2 h2 => hpre r2 (List.mem_cons_of_mem p h2)
    simp only [List.cons_append]
    unfold attemptAutoResolveAux
    cases hcond : p.condition b with
    | error e => exact ih r post hrest hr
    | ok v =>
      cases v
      · exact ih r post hrest hr
      · exact absurd hcond hp

/-- The general rule scan: with no condition returning true, the scan
reports unresolved. -/
theorem attemptAutoResolveAux_none (now : Int) (b : BreakRec) :
    ∀ rules : List ResolutionRule,
      (∀ r ∈ rules, r.condition b ≠ .ok true) →
      attemptAutoResolveAux now b rules = noResolution := by
  intro rules
  induction rules with
  | nil => intro _; rfl
  | cons p rest ih =>
    intro h
    have hp := h p (List.mem_cons_self p rest)
    have hrest : ∀ r2 ∈ rest, r2.condition b ≠ .ok true :=
      fun r2 h2 => h r2 (List.mem_cons_of_mem p h2)
    unfold attemptAutoResolveAux
    cases hcond : p.condition b with
    | error e => exact ih hrest
    | ok v =>
      cases v
      · exact ih hrest
      · exact absurd hcond hp

/-- C6: the resolver scans the fixed rule list in order and returns the
resolution (rule name, action, reason, timestamp) of the first rule whose
predicate returns true; a raising predicate is caught, treated as false,
and the scan continues; if no predicate returns true the result is
resolved = false. -/
theorem attemptAutoResolve_spec (now : Int) (b : BreakRec) :
    (∀ (pre : List ResolutionRule) (r : ResolutionRule) (post : List ResolutionRule),
      resolutionRules = pre ++ r :: post →
      (∀ r2 ∈ pre, r2.condition b ≠ .ok true) → r.condition b = .ok true →
      attemptAutoResolve now b = fireResolution r now)
    ∧ ((∀ r ∈ resolutionRules, r.condition b ≠ .ok true) →
      attemptAutoResolve now b = noResolution) := by
  constructor
  · intro pre r post hsplit hpre hr
    unfold attemptAutoResolve
    rw [hsplit]
    exact attemptAutoResolveAux_first now b pre r post hpre hr
  · intro h
    unfold attemptAutoResolve
    exact attemptAutoResolveAux_none now b resolutionRules h

/-- C6 witness: the first rule fires on a settlement break one day off,
and a break on which the first rule raises (and every other predicate is
false) resolves to nothing. -/
theorem attemptAutoResolve_spec_witness :
    attemptAutoResolve 0 bSettleOk
      = ⟨true, some "SETTLEMENT_DATE_T_PLUS_ADJUSTMENT", some "ACCEPT_EXTERNAL",
         some "Settlement date within T+1 tolerance", some 0⟩
    ∧ attemptAutoResolve 0 bSettleRaise = noResolution := by
  constructor
  · exact (attemptAutoResolve_spec 0 bSettleOk).1 [] settlementRule
      [pennyRule, quantityRule, counterpartyRule] rfl
      (by intro r2 h2; cases h2) rfl
  · refine (attemptAutoResolve_spec 0 bSettleRaise).2 ?_
    intro r hr
    fin_cases hr
    · intro hcon
      simp [settlementRule, rule1Cond, bSettleRaise, getField, pySubDays,
        Bind.bind, Except.bind] at hcon
    · intro hcon
      simp [pennyRule, rule2Cond, bSettleRaise] at hcon
    · intro hcon
      simp [quantityRule, rule3Cond, bSettleRaise] at hcon
    · intro hcon
      simp [counterpartyRule, rule4Cond, bSettleRaise] at hcon

/-- The results component of the batch loop does not depend on the
database component of the state. -/
theorem batch_foldl_db_indep (now : Int) :
    ∀ (bs : List BreakRec) (db1 db2 : List (Nat × BreakRow)) (res : BatchResults),
      (bs.foldl (batchStep now) (db1, res)).2 = (bs.foldl (batchStep now) (db2, res)).2 := by
  intro bs
  induction bs with
  | nil => intro db1 db2 res; rfl
  | cons b rest ih =>
    intro db1 db2 res
    simp only [List.foldl_cons]
    unfold batchStep
    dsimp only
    cases hres : b.auto_resolvable with
    | false =>
      simp only [Bool.false_eq_true, if_false]
      exact ih _ _ _
    | true =>
      simp only [if_true]
      cases hr : (attemptAutoResolve now b).resolved with
      | false =>
        simp only [Bool.false_eq_true, if_false]
        exact ih _ _ _
      | true =>
        simp only [if_true]
        exact ih _ _ _

/-- C7: running `batch_auto_resolve` a second time over the same break
list, on the database state the first run produced, returns exactly the
same results dictionary: the same resolutions and counters, with no
additional fires. -/
theorem batchAutoResolve_idempotent (now : Int) (db : List (Nat × BreakRow))
    (breaks : List BreakRec) :
    (batchAutoResolve now (batchAutoResolve now db breaks).1 breaks).2
      = (batchAutoResolve now db breaks).2 := by
  unfold batchAutoResolve
  exact batch_foldl_db_indep now breaks _ db _


/-- C8 counterexample: a quantity mismatch with impact 1 x 500 = 500 (at
most 1000) is classified MEDIUM by the code, where the claim's four-way
bucketing would say LOW. -/
theorem determineSeverity_counterexample :
    determineSeverity bQtyImpact500 = "MEDIUM"
    ∧ severityClaimC8 bQtyImpact500 = "LOW" := by
  constructor
  · have hm : strContains "QUANTITY_MISMATCH" "MISSING" = false := by decide
    have hp : strContains "QUANTITY_MISMATCH" "PRICE" = false := by decide
    have hq : strContains "QUANTITY_MISMATCH" "QUANTITY" = true := by decide
    norm_num [determineSeverity, bQtyImpact500, hm, hp, hq]
  · have e1 : ¬("QUANTITY_MISMATCH" = "MISSING_EXTERNAL_TRADE"
        ∨ "QUANTITY_MISMATCH" = "MISSING_INTERNAL_TRADE") := by decide
    have e2 : "QUANTITY_MISMATCH" ≠ "CURRENCY_MISMATCH" := by decide
    have e3 : "QUANTITY_MISMATCH" ≠ "PRICE_MISMATCH" := by decide
    norm_num [severityClaimC8, impactBucketC8, bQtyImpact500, e1, e2, e3]

/-- C8 (amended): price mismatches bucket four ways on impact |d| times
the break's trade quantity; quantity mismatches bucket only three ways on
|d| times the trade price (no low bucket: anything at most 10000 is
MEDIUM); missing-side and currency-mismatch breaks are CRITICAL. -/
theorem determineSeverity_amended :
    (∀ (d p q : ℚ), determineSeverity ⟨"PRICE_MISMATCH", some d, some ⟨p, q⟩⟩
        = impactBucketC8 (|d| * q))
    ∧ (∀ (d p q : ℚ), determineSeverity ⟨"QUANTITY_MISMATCH", some d, some ⟨p, q⟩⟩
        = (if 100000 < |d| * p then "CRITICAL"
           else if 10000 < |d| * p then "HIGH" else "MEDIUM"))
    ∧ (∀ (diff : Option ℚ) (tr : Option STrade),
        determineSeverity ⟨"MISSING_EXTERNAL_TRADE", diff, tr⟩ = "CRITICAL"
        ∧ determineSeverity ⟨"MISSING_INTERNAL_TRADE", diff, tr⟩ = "CRITICAL"
        ∧ determineSeverity ⟨"CURRENCY_MISMATCH", diff, tr⟩ = "CRITICAL") := by
  refine ⟨?_, ?_, ?_⟩
  · intro d p q
    have h1 : strContains "PRICE_MISMATCH" "MISSING" = false := by decide
    have h2 : strContains "PRICE_MISMATCH" "PRICE" = true := by decide
    simp [determineSeverity, impactBucketC8, h1, h2]
  · intro d p q
    have h1 : strContains "QUANTITY_MISMATCH" "MISSING" = false := by decide
    have h2 : strContains "QUANTITY_MISMATCH" "PRICE" = false := by decide
    have h3 : strContains "QUANTITY_MISMATCH" "QUANTITY" = true := by decide
    simp [determineSeverity, h1, h2, h3]
  · intro diff tr
    have h1 : strContains "MISSING_EXTERNAL_TRADE" "MISSING" = true := by decide
    have h2 : strContains "MISSING_INTERNAL_TRADE" "MISSING" = true := by decide
    have h3 : strContains "CURRENCY_MISMATCH" "MISSING" = false := by decide
    have h4 : strContains "CURRENCY_MISMATCH" "PRICE" = false := by decide
    have h5 : strContains "CURRENCY_MISMATCH" "QUANTITY" = false := by decide
    have h6 : severityMap "CURRENCY_MISMATCH" = "CRITICAL" := by decide
    refine ⟨by simp [determineSeverity, h1], by simp [determineSeverity, h2], ?_⟩
    cases diff <;> simp [determineSeverity, h3, h4, h5, h6]

/-- Both zero-denominator outcomes of the percent division score 0. -/
theorem proximityScore_pdiv_zero (tol a : ℚ) : proximityScore tol (pdiv a 0) = 0 := by
  rcases eq_or_ne a 0 with h | h
  · rw [h, pdiv_zero_zero]
    rfl
  · rw [pdiv_zero_of_ne a h]
    rfl

/-- C9 (amended): zero denominators never raise.  A zero internal
quantity against a nonzero candidate quantity yields an infinite percent
difference and validation rejects; a zero internal price with absolute
difference above the (nonnegative) absolute tolerance likewise rejects;
and with zero internal price and quantity the score still computes, with
both proximity components scored 0.  The remaining zero-over-zero NaN
case is not rejected (see the counterexample). -/
theorem zero_denominator_behaviour (cfg : MatchConfig) (fz : String → String → ℚ)
    (internal other : Trade) :
    (internal.quantity = 0 → other.quantity ≠ 0 →
        validateMatch cfg internal other = false)
    ∧ (internal.price = 0 → 0 ≤ cfg.price_tolerance_absolute →
        cfg.price_tolerance_absolute < |internal.price - other.price| →
        validateMatch cfg internal other = false)
    ∧ (internal.price = 0 → internal.quantity = 0 →
        calculateMatchScore cfg fz internal other
          = ((if internal.instrument_id = other.instrument_id then (1:ℚ) else 0)
              + fz internal.counterparty.toUpper other.counterparty.toUpper / 100 * (8/10)
              + max 0 (1 - timeDiffHours internal other / cfg.time_window_hours) * (6/10))
            / 5) := by
  refine ⟨?_, ?_, ?_⟩
  · intro hq hne
    unfold validateMatch
    dsimp only
    have hinf : pdiv |internal.quantity - other.quantity| internal.quantity = .inf := by
      rw [hq]
      exact pdiv_zero_of_ne _ (by simpa using hne)
    rw [hinf]
    split
    · rfl
    · rfl
  · intro hp h0 habs
    unfold validateMatch
    dsimp only
    have hne : |internal.price - other.price| ≠ 0 :=
      ne_of_gt (lt_of_le_of_lt h0 habs)
    rw [hp] at hne habs ⊢
    have habs2 : cfg.price_tolerance_absolute < |other.price| := by simpa using habs
    rw [pdiv_zero_of_ne _ hne]
    simp [pyGt, habs2]
  · intro hp hq
    unfold calculateMatchScore
    dsimp only
    rw [hp, hq, proximityScore_pdiv_zero, proximityScore_pdiv_zero]
    ring

/-- C9 witness: the amended statement at concrete inputs: a zero-quantity
internal against quantity 100 is rejected, a zero-price internal against
price 10 is rejected, and the zero-both score computes to the three
remaining components. -/
theorem zero_denominator_behaviour_witness :
    validateMatch defaultConfig tIntZeroQty tExtA = false
    ∧ validateMatch defaultConfig tIntZeroPrice tExtA = false
    ∧ calculateMatchScore defaultConfig fzSample tIntZeroBoth tExtA
        = ((if tIntZeroBoth.instrument_id = tExtA.instrument_id then (1:ℚ) else 0)
            + fzSample tIntZeroBoth.counterparty.toUpper tExtA.counterparty.toUpper
                / 100 * (8/10)
            + max 0 (1 - timeDiffHours tIntZeroBoth tExtA
                / defaultConfig.time_window_hours) * (6/10)) / 5 :=
  ⟨(zero_denominator_behaviour defaultConfig fzSample tIntZeroQty tExtA).1
      (by norm_num [tIntZeroQty]) (by norm_num [tExtA]),
   (zero_denominator_behaviour defaultConfig fzSample tIntZeroPrice tExtA).2.1
      (by norm_num [tIntZeroPrice]) (by norm_num [defaultConfig])
      (by norm_num [tIntZeroPrice, tExtA, defaultConfig]),
   (zero_denominator_behaviour defaultConfig fzSample tIntZeroBoth tExtA).2.2
      (by norm_num [tIntZeroBoth]) (by norm_num [tIntZeroBoth])⟩

/-- C9 counterexample: a zero-over-zero quantity (NaN percent difference)
is NOT treated as infinite-and-rejected: the validation gate accepts the
pair under the default tolerances, and with a permissive minimum score
the matcher pairs it. -/
theorem zero_denominator_counterexample :
    validateMatch defaultConfig tIntZeroQty tExtZeroQty = true
    ∧ (matchTrades cfgHalf fzSample [tIntZeroQty] [tExtZeroQty]).1.length = 1 := by
  constructor
  · norm_num [validateMatch, pdiv, pyGt, defaultConfig, tIntZeroQty, tExtZeroQty]
  · norm_num [matchTrades, matchStep, findBestMatch, getCandidates, createLookupIndex,
      tradeKeys, findBestLoop, validateMatch, calculateMatchScore, proximityScore, pdiv,
      pyGt, timeDiffHours, cfgHalf, fzSample, tIntZeroQty, tExtZeroQty]

/-- C10: the pattern-detector feature encoding depends on the process
string-hash function: two processes whose builtin salted hashes differ
produce different feature matrices for the same five byte-identical
breaks, so the clustering input (and hence cluster identity) is not
stable across process restarts. -/
theorem detectPatternsFeatures_hash_dependent :
    detectPatternsFeatures pHashZero pbList5 ≠ detectPatternsFeatures pHashOne pbList5 := by
  norm_num [detectPatternsFeatures, featureVector, pHashZero, pHashOne, pbList5, pbSample,
    List.replicate]

end TradeRecon
